import Mathlib

/-!
# neonclean: the file-intake and processing state machine of `src/App.jsx`

The component `App` holds four pieces of React state and reacts to five kinds of
events: a file picked (`handleFileChange`), a file dropped (`handleDrop`), a drag
entering or leaving the drop target, and the settlement of a pending
`removeBackground` promise.  Everything the handlers do to the outside world goes
through `URL.createObjectURL`, `URL.revokeObjectURL`, `alert`, `console.error` and
`removeBackground`; these are recorded in an append-only effect log, and the
browser's table of live object URLs is kept next to the React state.

An `async` function runs synchronously up to its first `await`; the rest runs as
one uninterrupted continuation when the awaited promise settles.  `processImage`
is therefore split at line 36 into the part run by the event handler
(`processImage`) and the continuation run on settlement (`settle`).

`originalImage` and `resultImage` are constants of one render.  Every handler is
re-created at each render, so an event handler reads the constants of the last
committed render (`World.rendered`), which can be older than the values last passed
to the setters (`World.st`): an update made inside an event handler is rendered
before the next event, an update made by the continuation is rendered by a render
scheduled for later (`Event.render`).  The effect of line 10 has the dependency
list `[]`, so its cleanup is the closure of the first render.
-/

namespace NeonClean

/-- An object URL (`blob:...`), identified by the serial number the browser gave it. -/
abbrev Url := Nat

/-- The payload `removeBackground` resolves with. -/
abbrev Blob := Nat

/-- The value `removeBackground` rejects with. -/
abbrev Error := String

/-- The two fields of a DOM `File` that the component reads. -/
structure File where
  type : String
  size : Nat
deriving DecidableEq, Repr

/-- What `URL.createObjectURL` was called on: the submitted file (line 32) or the
blob returned by `removeBackground` (line 37). -/
inductive Source where
  | file (f : File)
  | blob (b : Blob)
deriving DecidableEq, Repr

/-- Calls that leave the component. -/
inductive Effect where
  | createObjectURL (src : Source) (url : Url)
  | revokeObjectURL (url : Url)
  | alert (msg : String)
  | consoleError (err : Error)
  | removeBackground (file : File) (op : Nat)
deriving DecidableEq, Repr

/-- The four `useState` cells of lines 5-8. -/
structure State where
  originalImage : Option Url
  resultImage : Option Url
  isLoading : Bool
  isDragging : Bool
deriving DecidableEq, Repr

/-- One entry of the browser's blob URL store. -/
structure Entry where
  url : Url
  src : Source
deriving DecidableEq, Repr

/-- A `removeBackground` promise that has not settled yet. -/
structure Pending where
  op : Nat
  file : File
deriving DecidableEq, Repr

/-- The component together with its environment. -/
structure World where
  /-- the value of each cell once every queued update is applied -/
  st : State
  /-- the constants of the last committed render, which the handlers close over -/
  rendered : State
  /-- object URLs created and not yet revoked -/
  store : List Entry
  /-- serial number of the next object URL -/
  nextUrl : Nat
  /-- calls of `removeBackground` still in flight -/
  pending : List Pending
  /-- serial number of the next call of `removeBackground` -/
  nextOp : Nat
  /-- every effect so far, oldest first -/
  log : List Effect
deriving DecidableEq, Repr

/-- How a `removeBackground` promise settles. -/
inductive Outcome where
  | resolve (blob : Blob)
  | reject (err : Error)
deriving DecidableEq, Repr

/-- The values of `useState(null)`, `useState(null)`, `useState(false)`,
`useState(false)` at the first render. -/
def initialState : State :=
  { originalImage := none, resultImage := none, isLoading := false, isDragging := false }

/-- The freshly mounted component in a browser with no object URLs. -/
def init : World :=
  { st := initialState, rendered := initialState, store := [], nextUrl := 0, pending := [],
    nextOp := 0, log := [] }

/-- `String.prototype.startsWith`, on the characters of both strings.  The only
prefix tested is the ASCII string `image/`, for which comparing code points and
comparing UTF-16 code units give the same answer. -/
def startsWith (s searchString : String) : Bool :=
  searchString.toList.isPrefixOf s.toList

/-- `URL.createObjectURL`: a new URL, never handed out before, now live. -/
def createObjectURL (src : Source) (w : World) : Url × World :=
  (w.nextUrl,
   { w with store := w.store ++ [{ url := w.nextUrl, src := src }],
            nextUrl := w.nextUrl + 1,
            log := w.log ++ [Effect.createObjectURL src w.nextUrl] })

/-- `URL.revokeObjectURL`: the URL is no longer live (nothing happens to the store
when it was not). -/
def revokeObjectURL (url : Url) (w : World) : World :=
  { w with store := w.store.filter (fun e => e.url != url),
           log := w.log ++ [Effect.revokeObjectURL url] }

/-- `alert(msg)`. -/
def alert (msg : String) (w : World) : World :=
  { w with log := w.log ++ [Effect.alert msg] }

/-- `console.error(err)`. -/
def consoleError (err : Error) (w : World) : World :=
  { w with log := w.log ++ [Effect.consoleError err] }

/-- Where a state setter is called from.  An update made while an event handler
runs is applied by the synchronous render that ends the event: the handlers of the
next event are closures over the new value.  An update made by the continuation
after the `await` is queued and applied by a render scheduled for later
(`Event.render`); until then the handlers are those of the previous render. -/
inductive Caller where
  | handler
  | continuation
deriving DecidableEq, Repr

def setOriginalImage (c : Caller) (v : Option Url) (w : World) : World :=
  match c with
  | Caller.handler =>
    { w with st := { w.st with originalImage := v },
             rendered := { w.rendered with originalImage := v } }
  | Caller.continuation => { w with st := { w.st with originalImage := v } }

def setResultImage (c : Caller) (v : Option Url) (w : World) : World :=
  match c with
  | Caller.handler =>
    { w with st := { w.st with resultImage := v },
             rendered := { w.rendered with resultImage := v } }
  | Caller.continuation => { w with st := { w.st with resultImage := v } }

def setIsLoading (c : Caller) (v : Bool) (w : World) : World :=
  match c with
  | Caller.handler =>
    { w with st := { w.st with isLoading := v },
             rendered := { w.rendered with isLoading := v } }
  | Caller.continuation => { w with st := { w.st with isLoading := v } }

def setIsDragging (c : Caller) (v : Bool) (w : World) : World :=
  match c with
  | Caller.handler =>
    { w with st := { w.st with isDragging := v },
             rendered := { w.rendered with isDragging := v } }
  | Caller.continuation => { w with st := { w.st with isDragging := v } }

/-- The call `removeBackground(file)` of line 36: the promise is now in flight. -/
def removeBackground (file : File) (w : World) : World :=
  { w with pending := w.pending ++ [{ op := w.nextOp, file := file }],
           nextOp := w.nextOp + 1,
           log := w.log ++ [Effect.removeBackground file w.nextOp] }

/-- `if (url) URL.revokeObjectURL(url)`: `null` is falsy, an object URL is a
non-empty string and so truthy. -/
def revokeIfSet (url : Option Url) (w : World) : World :=
  match url with
  | some u => revokeObjectURL u w
  | none => w

/-- Lines 17-36 of `processImage`, up to the `await`, run inside an event handler.
`file` is `none` for `undefined` (an empty `files` list).  `originalImage` and
`resultImage` of lines 26-27 are the constants of the render that made this
closure. -/
def processImage (file : Option File) (w : World) : World :=
  match file with
  | none => w
  | some f =>
    if !startsWith f.type "image/" then w
    else if f.size > 10 * 1024 * 1024 then
      alert "File is too large! Max 10 MB." w
    else
      let originalImage := w.rendered.originalImage
      let resultImage := w.rendered.resultImage
      let w := revokeIfSet originalImage w
      let w := revokeIfSet resultImage w
      let w := setResultImage Caller.handler none w
      let w := setIsLoading Caller.handler true w
      let (originalUrl, w) := createObjectURL (Source.file f) w
      let w := setOriginalImage Caller.handler (some originalUrl) w
      removeBackground f w

/-- Whether call `op` of `removeBackground` is still in flight. -/
def isPending (op : Nat) (w : World) : Bool :=
  w.pending.any (fun p => p.op == op)

/-- Lines 36-44 of `processImage`, after the `await`: the `try` tail on
resolution, the `catch` block on rejection, and the `finally` block in both
cases.  A promise settles once: nothing happens for a call not in flight. -/
def settle (op : Nat) (o : Outcome) (w : World) : World :=
  if isPending op w then
    let w := { w with pending := w.pending.filter (fun p => p.op != op) }
    match o with
    | Outcome.resolve resultBlob =>
      let (resultUrl, w) := createObjectURL (Source.blob resultBlob) w
      let w := setResultImage Caller.continuation (some resultUrl) w
      setIsLoading Caller.continuation false w
    | Outcome.reject error =>
      let w := consoleError error w
      let w := alert "Failed to remove background" w
      setIsLoading Caller.continuation false w
  else w

/-- Lines 47-51. -/
def handleFileChange (file : Option File) (w : World) : World :=
  processImage file w

/-- Lines 53-56. -/
def handleDragOver (w : World) : World :=
  setIsDragging Caller.handler true w

/-- Lines 58-60. -/
def handleDragLeave (w : World) : World :=
  setIsDragging Caller.handler false w

/-- Lines 62-67. -/
def handleDrop (file : Option File) (w : World) : World :=
  let w := setIsDragging Caller.handler false w
  processImage file w

/-- The cleanup function of lines 11-14, as the closure of a render in which the
state cells had the values `originalImage` and `resultImage`. -/
def effectCleanup (originalImage resultImage : Option Url) (w : World) : World :=
  let w := revokeIfSet originalImage w
  revokeIfSet resultImage w

/-- Component teardown.  The effect of line 10 has the dependency list `[]`
(line 15): it runs once, after the first render, and the cleanup it returns is the
closure of that render, in which both state cells hold their initial value. -/
def unmount (w : World) : World :=
  effectCleanup initialState.originalImage initialState.resultImage w

/-- A render that applies every queued update: the handlers of the following
events are closures over the current value of each cell. -/
def render (w : World) : World :=
  { w with rendered := w.st }

/-- What can happen to a mounted component. -/
inductive Event where
  | fileChange (file : Option File)
  | drop (file : Option File)
  | dragOver
  | dragLeave
  | settle (op : Nat) (o : Outcome)
  | render
deriving DecidableEq, Repr

def step (w : World) (e : Event) : World :=
  match e with
  | Event.fileChange file => handleFileChange file w
  | Event.drop file => handleDrop file w
  | Event.dragOver => handleDragOver w
  | Event.dragLeave => handleDragLeave w
  | Event.settle op o => settle op o w
  | Event.render => render w

/-- The world after a sequence of events, oldest first. -/
def run (w : World) (es : List Event) : World :=
  es.foldl step w

/-- The effects emitted between an earlier world and a later one. -/
def emitted (w w' : World) : List Effect :=
  w'.log.drop w.log.length

/-- A file that passes both guards of lines 18 and 20. -/
def valid (f : File) : Bool :=
  !(!startsWith f.type "image/") && !decide (f.size > 10 * 1024 * 1024)

/-- The effects of `if (url) URL.revokeObjectURL(url)`. -/
def revokes (url : Option Url) : List Effect :=
  url.toList.map Effect.revokeObjectURL

/-- Whether a store entry survives `if (url) URL.revokeObjectURL(url)`. -/
def survives (url : Option Url) (e : Entry) : Bool :=
  url != some e.url

def isOriginal (e : Entry) : Bool :=
  match e.src with
  | Source.file _ => true
  | Source.blob _ => false

def isResult (e : Entry) : Bool :=
  match e.src with
  | Source.file _ => false
  | Source.blob _ => true

/-- Live object URLs made from submitted files. -/
def liveOriginals (w : World) : List Url :=
  (w.store.filter isOriginal).map Entry.url

/-- Live object URLs made from returned blobs. -/
def liveResults (w : World) : List Url :=
  (w.store.filter isResult).map Entry.url

/-- Whether `processImage` lets the file through both guards. -/
def accepts (file : Option File) : Bool :=
  match file with
  | some f => valid f
  | none => false

/-- Events that neither start an operation nor settle one. -/
def idle (e : Event) : Bool :=
  match e with
  | Event.fileChange file => !accepts file
  | Event.drop file => !accepts file
  | Event.dragOver => true
  | Event.dragLeave => true
  | Event.settle _ _ => false
  | Event.render => true

/-- No event of the sequence settles a call that is in flight when it happens. -/
def noSettlement (w : World) (es : List Event) : Bool :=
  match es with
  | [] => true
  | e :: rest =>
    (match e with
     | Event.settle op _ => !isPending op w
     | _ => true) && noSettlement (step w e) rest

/-- A moment at which a file may be accepted without overlapping an earlier
operation: no call of `removeBackground` is in flight, and the component has
rendered the result of the last one. -/
def atRest (w : World) : Bool :=
  w.pending.isEmpty && decide (w.rendered.resultImage = w.st.resultImage)

/-- No file is accepted while a call of `removeBackground` is in flight or before
the result of the last call is rendered. -/
def noOverlap (w : World) (es : List Event) : Bool :=
  match es with
  | [] => true
  | e :: rest =>
    (match e with
     | Event.fileChange file => !accepts file || atRest w
     | Event.drop file => !accepts file || atRest w
     | _ => true) && noOverlap (step w e) rest

/-- What the page shows of the state: whether each image is there, the loading
indicator and the drop-target highlight; not which URL an image has. -/
def observable (s : State) : Bool × Bool × Bool × Bool :=
  (s.originalImage.isSome, s.resultImage.isSome, s.isLoading, s.isDragging)

/-- The world after the synchronous part of an accepted submission. -/
def accepted (f : File) (w : World) : World :=
  { st := { originalImage := some w.nextUrl, resultImage := none, isLoading := true,
            isDragging := w.st.isDragging },
    rendered := { originalImage := some w.nextUrl, resultImage := none, isLoading := true,
                  isDragging := w.rendered.isDragging },
    store := ((w.store.filter (survives w.rendered.originalImage)).filter
                (survives w.rendered.resultImage)) ++ [{ url := w.nextUrl, src := Source.file f }],
    nextUrl := w.nextUrl + 1,
    pending := w.pending ++ [{ op := w.nextOp, file := f }],
    nextOp := w.nextOp + 1,
    log := w.log ++ (revokes w.rendered.originalImage ++ (revokes w.rendered.resultImage ++
             [Effect.createObjectURL (Source.file f) w.nextUrl,
              Effect.removeBackground f w.nextOp])) }

/-- The part of the world an idle event leaves alone. -/
def core (w : World) : Option Url × Option Url × Bool × List Entry × Nat × List Pending × Nat :=
  (w.st.originalImage, w.st.resultImage, w.st.isLoading, w.store, w.nextUrl, w.pending,
   w.nextOp)

/-- Call `op` is in flight, the original image is shown, no result is, and the
loading indicator is on. -/
def InFlight (op : Nat) (w : World) : Prop :=
  w.st.originalImage.isSome = true ∧ w.st.resultImage = none ∧ w.st.isLoading = true ∧
  isPending op w = true

/-- Whether the call resolved. -/
def resolved (o : Outcome) : Bool :=
  match o with
  | Outcome.resolve _ => true
  | Outcome.reject _ => false

/-- The one live URL made from a file is the one held in `originalImage`, and the
last render has it. -/
def OriginalsHeld (w : World) : Prop :=
  liveOriginals w = w.st.originalImage.toList ∧ w.rendered.originalImage = w.st.originalImage

/-- The one live URL made from a blob is the one held in `resultImage`, at most one
call is in flight, and `resultImage` is null while one is. -/
def ResultsHeld (w : World) : Prop :=
  liveResults w = w.st.resultImage.toList ∧
  (w.pending = [] ∨ (∃ p, w.pending = [p]) ∧ w.st.resultImage = none)

def png : File := { type := "image/png", size := 2048 }

def jpg : File := { type := "image/jpeg", size := 4096 }

/-! ## The shape of one call -/

theorem revokeIfSet_st (o : Option Url) (w : World) : (revokeIfSet o w).st = w.st := by
  cases o <;> rfl

theorem revokeIfSet_rendered (o : Option Url) (w : World) :
    (revokeIfSet o w).rendered = w.rendered := by
  cases o <;> rfl

theorem revokeIfSet_nextUrl (o : Option Url) (w : World) :
    (revokeIfSet o w).nextUrl = w.nextUrl := by
  cases o <;> rfl

theorem revokeIfSet_pending (o : Option Url) (w : World) :
    (revokeIfSet o w).pending = w.pending := by
  cases o <;> rfl

theorem revokeIfSet_nextOp (o : Option Url) (w : World) :
    (revokeIfSet o w).nextOp = w.nextOp := by
  cases o <;> rfl

theorem revokeIfSet_log (o : Option Url) (w : World) :
    (revokeIfSet o w).log = w.log ++ revokes o := by
  cases o <;> simp [revokeIfSet, revokeObjectURL, revokes]

theorem revokeIfSet_store (o : Option Url) (w : World) :
    (revokeIfSet o w).store = w.store.filter (survives o) := by
  cases o with
  | none =>
    have h : survives none = fun _ => true := by
      funext e
      simp [survives]
    simp [revokeIfSet, h]
  | some u =>
    simp only [revokeIfSet, revokeObjectURL]
    congr 1
    funext e
    simp [survives, bne, eq_comm]

theorem valid_iff (f : File) :
    valid f = true ↔ startsWith f.type "image/" = true ∧ f.size ≤ 10485760 := by
  simp [valid]

theorem processImage_valid (f : File) (w : World) (h : valid f = true) :
    processImage (some f) w = accepted f w := by
  obtain ⟨h1, h2⟩ := (valid_iff f).1 h
  have h3 : ¬ (10 * 1024 * 1024 < f.size) := by omega
  simp only [processImage, h1, Bool.not_true, Bool.false_eq_true, if_false, gt_iff_lt, h3,
    accepted, removeBackground, setOriginalImage, createObjectURL, setIsLoading,
    setResultImage, revokeIfSet_st, revokeIfSet_rendered, revokeIfSet_nextUrl, revokeIfSet_pending,
    revokeIfSet_nextOp, revokeIfSet_log, revokeIfSet_store, List.append_assoc,
    List.singleton_append]

theorem settle_resolve (op : Nat) (b : Blob) (w : World) (h : isPending op w = true) :
    settle op (Outcome.resolve b) w =
      { st := { originalImage := w.st.originalImage, resultImage := some w.nextUrl,
                isLoading := false, isDragging := w.st.isDragging },
        rendered := w.rendered,
        store := w.store ++ [{ url := w.nextUrl, src := Source.blob b }],
        nextUrl := w.nextUrl + 1,
        pending := w.pending.filter (fun p => p.op != op),
        nextOp := w.nextOp,
        log := w.log ++ [Effect.createObjectURL (Source.blob b) w.nextUrl] } := by
  simp [settle, h, createObjectURL, setResultImage, setIsLoading]

theorem settle_reject (op : Nat) (err : Error) (w : World) (h : isPending op w = true) :
    settle op (Outcome.reject err) w =
      { st := { originalImage := w.st.originalImage, resultImage := w.st.resultImage,
                isLoading := false, isDragging := w.st.isDragging },
        rendered := w.rendered,
        store := w.store,
        nextUrl := w.nextUrl,
        pending := w.pending.filter (fun p => p.op != op),
        nextOp := w.nextOp,
        log := w.log ++ [Effect.consoleError err,
                         Effect.alert "Failed to remove background"] } := by
  simp [settle, h, consoleError, alert, setIsLoading]

theorem settle_idle (op : Nat) (o : Outcome) (w : World) (h : isPending op w = false) :
    settle op o w = w := by
  simp [settle, h]

theorem emitted_append (w w' : World) (l : List Effect) (h : w'.log = w.log ++ l) :
    emitted w w' = l := by
  simp [emitted, h]

theorem emitted_self (w : World) : emitted w w = [] := by
  simp [emitted]

theorem processImage_other_type (f : File) (w : World)
    (h : startsWith f.type "image/" = false) : processImage (some f) w = w := by
  simp [processImage, h]

theorem processImage_oversize (f : File) (w : World)
    (htype : startsWith f.type "image/" = true) (hsize : 10485760 < f.size) :
    processImage (some f) w = alert "File is too large! Max 10 MB." w := by
  have h : 10 * 1024 * 1024 < f.size := by omega
  simp [processImage, htype, h]

theorem emitted_oversize (f : File) (w : World)
    (htype : startsWith f.type "image/" = true) (hsize : 10485760 < f.size) :
    emitted w (processImage (some f) w) = [Effect.alert "File is too large! Max 10 MB."] := by
  rw [processImage_oversize f w htype hsize]
  exact emitted_append _ _ _ rfl

theorem processImage_cases (file : Option File) (w : World) :
    (accepts file = false ∧
      (processImage file w = w ∨
        processImage file w = alert "File is too large! Max 10 MB." w)) ∨
    (∃ f, file = some f ∧ valid f = true ∧ processImage file w = accepted f w) := by
  cases file with
  | none => exact Or.inl ⟨rfl, Or.inl rfl⟩
  | some f =>
    by_cases ht : startsWith f.type "image/" = true
    · by_cases hs : f.size ≤ 10485760
      · exact Or.inr ⟨f, rfl, (valid_iff f).2 ⟨ht, hs⟩,
          processImage_valid f w ((valid_iff f).2 ⟨ht, hs⟩)⟩
      · refine Or.inl ⟨?_, Or.inr (processImage_oversize f w ht (by omega))⟩
        have hn : ¬ valid f = true := fun hv => hs ((valid_iff f).1 hv).2
        simpa [accepts] using hn
    · refine Or.inl ⟨?_, Or.inl (processImage_other_type f w (by simpa using ht))⟩
      have hn : ¬ valid f = true := fun hv => ht ((valid_iff f).1 hv).1
      simpa [accepts] using hn

/-- What an event that is not a settlement can do to the loading flag. -/
theorem processImage_keeps_loading (file : Option File) (w : World)
    (h : w.st.isLoading = true) : (processImage file w).st.isLoading = true := by
  rcases processImage_cases file w with ⟨-, e | e⟩ | ⟨f, -, -, e⟩
  · rw [e]; exact h
  · rw [e]; exact h
  · rw [e]; rfl

theorem step_keeps_loading (w : World) (e : Event) (h : w.st.isLoading = true)
    (hq : ∀ op o, e = Event.settle op o → isPending op w = false) :
    (step w e).st.isLoading = true := by
  cases e with
  | fileChange file => exact processImage_keeps_loading file w h
  | drop file => exact processImage_keeps_loading file (setIsDragging Caller.handler false w) h
  | dragOver => exact h
  | dragLeave => exact h
  | settle op o =>
    simp only [step]
    rw [settle_idle op o w (hq op o rfl)]
    exact h
  | render => exact h

theorem run_keeps_loading (es : List Event) (w : World) (h : w.st.isLoading = true)
    (hq : noSettlement w es = true) : (run w es).st.isLoading = true := by
  induction es generalizing w with
  | nil => exact h
  | cons e rest ih =>
    simp only [noSettlement, Bool.and_eq_true] at hq
    have h1 : (step w e).st.isLoading = true := by
      apply step_keeps_loading w e h
      intro op o he
      subst he
      simpa using hq.1
    exact ih (step w e) h1 hq.2

theorem processImage_idle (file : Option File) (w : World) (h : accepts file = false) :
    core (processImage file w) = core w := by
  rcases processImage_cases file w with ⟨-, e | e⟩ | ⟨f, rfl, hv, -⟩
  · rw [e]
  · rw [e]; rfl
  · simp [accepts, hv] at h

theorem step_idle (w : World) (e : Event) (h : idle e = true) : core (step w e) = core w := by
  cases e with
  | fileChange file =>
    exact processImage_idle file w (by simpa [idle] using h)
  | drop file =>
    exact (processImage_idle file (setIsDragging Caller.handler false w) (by simpa [idle] using h)).trans rfl
  | dragOver => rfl
  | dragLeave => rfl
  | settle op o => simp [idle] at h
  | render => rfl

theorem run_idle (es : List Event) (w : World) (h : ∀ e ∈ es, idle e = true) :
    core (run w es) = core w := by
  induction es generalizing w with
  | nil => rfl
  | cons e rest ih =>
    have h1 := ih (step w e) (fun x hx => h x (List.mem_cons_of_mem e hx))
    exact h1.trans (step_idle w e (h e (List.mem_cons_self e rest)))

/-- The log only grows. -/
theorem processImage_log (file : Option File) (w : World) :
    ∃ l, (processImage file w).log = w.log ++ l := by
  rcases processImage_cases file w with ⟨-, e | e⟩ | ⟨f, -, -, e⟩
  · exact ⟨[], by rw [e]; simp⟩
  · exact ⟨_, by rw [e]; rfl⟩
  · exact ⟨_, by rw [e]; rfl⟩

theorem step_log (w : World) (e : Event) : ∃ l, (step w e).log = w.log ++ l := by
  cases e with
  | fileChange file => exact processImage_log file w
  | drop file => exact processImage_log file (setIsDragging Caller.handler false w)
  | dragOver => exact ⟨[], by simp [step, handleDragOver, setIsDragging]⟩
  | dragLeave => exact ⟨[], by simp [step, handleDragLeave, setIsDragging]⟩
  | settle op o =>
    by_cases hp : isPending op w = true
    · cases o with
      | resolve b => exact ⟨_, by simp only [step]; rw [settle_resolve op b w hp]⟩
      | reject err => exact ⟨_, by simp only [step]; rw [settle_reject op err w hp]⟩
    · exact ⟨[], by simp only [step]; rw [settle_idle op o w (by simpa using hp)]; simp⟩
  | render => exact ⟨[], by simp [step, render]⟩

theorem run_log (es : List Event) (w : World) : ∃ l, (run w es).log = w.log ++ l := by
  induction es generalizing w with
  | nil => exact ⟨[], by simp [run]⟩
  | cons e rest ih =>
    obtain ⟨l1, h1⟩ := step_log w e
    obtain ⟨l2, h2⟩ := ih (step w e)
    exact ⟨l1 ++ l2, by simp only [run, List.foldl_cons] at h2 ⊢; rw [h2, h1, List.append_assoc]⟩

/-- The call counter only grows. -/
theorem processImage_nextOp (file : Option File) (w : World) :
    w.nextOp ≤ (processImage file w).nextOp := by
  rcases processImage_cases file w with ⟨-, e | e⟩ | ⟨f, -, -, e⟩
  · rw [e]
  · rw [e]; exact le_refl _
  · rw [e]; exact Nat.le_succ _

theorem step_nextOp (w : World) (e : Event) : w.nextOp ≤ (step w e).nextOp := by
  cases e with
  | fileChange file => exact processImage_nextOp file w
  | drop file => exact processImage_nextOp file (setIsDragging Caller.handler false w)
  | dragOver => exact le_refl _
  | dragLeave => exact le_refl _
  | settle op o =>
    by_cases hp : isPending op w = true
    · cases o with
      | resolve b => simp only [step]; rw [settle_resolve op b w hp]
      | reject err => simp only [step]; rw [settle_reject op err w hp]
    · simp only [step]; rw [settle_idle op o w (by simpa using hp)]
  | render => exact le_refl _

theorem run_nextOp (es : List Event) (w : World) : w.nextOp ≤ (run w es).nextOp := by
  induction es generalizing w with
  | nil => exact le_refl _
  | cons e rest ih => exact le_trans (step_nextOp w e) (ih (step w e))

/-! ## Input validation -/

/-- C2: an image file larger than 10,485,760 bytes is rejected.  The React state (as last set and
as last rendered), the table of live object URLs, the URL counter and the calls in
flight are what they were; no URL is created or revoked and removeBackground is not called: the one
effect emitted is the alert "File is too large! Max 10 MB.". -/
theorem processImage_too_large (f : File) (w : World)
    (htype : startsWith f.type "image/" = true) (hsize : f.size > 10485760) :
    (processImage (some f) w).st = w.st ∧
    (processImage (some f) w).rendered = w.rendered ∧
    (processImage (some f) w).store = w.store ∧
    (processImage (some f) w).nextUrl = w.nextUrl ∧
    (processImage (some f) w).pending = w.pending ∧
    (processImage (some f) w).nextOp = w.nextOp ∧
    emitted w (processImage (some f) w) = [Effect.alert "File is too large! Max 10 MB."] := by
  refine ⟨?_, ?_, ?_, ?_, ?_, ?_, emitted_oversize f w htype hsize⟩ <;>
    rw [processImage_oversize f w htype hsize] <;> rfl

theorem processImage_too_large_witness :
    startsWith "image/png" "image/" = true ∧ 10485761 > 10485760 ∧
    (processImage (some { type := "image/png", size := 10485761 }) init).st = init.st ∧
    emitted init (processImage (some { type := "image/png", size := 10485761 }) init)
      = [Effect.alert "File is too large! Max 10 MB."] :=
  have h := processImage_too_large { type := "image/png", size := 10485761 } init
    (by decide) (by decide)
  ⟨by decide, by decide, h.1, h.2.2.2.2.2.2⟩

/-- C3: a file whose type does not start with "image/", and an absent file, leave
the whole world as it was, through processImage and through handleFileChange: same
state, same live URLs, same calls in flight, and an unchanged effect log (no URL
created or revoked, no alert, no call of removeBackground). -/
theorem processImage_not_image (file : Option File) (w : World)
    (h : ∀ f, file = some f → startsWith f.type "image/" = false) :
    processImage file w = w ∧ handleFileChange file w = w ∧
    emitted w (processImage file w) = [] := by
  have e : processImage file w = w := by
    cases file with
    | none => rfl
    | some f => exact processImage_other_type f w (h f rfl)
  refine ⟨e, e, ?_⟩
  rw [e]
  exact emitted_self w

theorem processImage_not_image_witness :
    (processImage none init = init ∧ handleFileChange none init = init ∧
      emitted init (processImage none init) = []) ∧
    (processImage (some { type := "text/plain", size := 12 }) (accepted png init)
        = accepted png init ∧
      handleFileChange (some { type := "text/plain", size := 12 }) (accepted png init)
        = accepted png init ∧
      emitted (accepted png init)
        (processImage (some { type := "text/plain", size := 12 }) (accepted png init)) = []) :=
  ⟨processImage_not_image none init (by intro f hf; cases hf),
   processImage_not_image (some { type := "text/plain", size := 12 }) (accepted png init)
     (by intro f hf; cases hf; decide)⟩

/-- C4: processImage starts an operation (it creates an object URL for the file and
calls removeBackground on it, and that call is then in flight) if and only if the
file is present, its type begins with "image/" and its size is at most 10,485,760
bytes; an image file of exactly 10,485,760 bytes is accepted and one of 10,485,761
bytes is not. -/
theorem processImage_accepts_iff (file : Option File) (w : World) :
    ((∃ f, file = some f ∧
        Effect.createObjectURL (Source.file f) w.nextUrl ∈ emitted w (processImage file w) ∧
        Effect.removeBackground f w.nextOp ∈ emitted w (processImage file w) ∧
        isPending w.nextOp (processImage file w) = true) ↔
      (∃ f, file = some f ∧ startsWith f.type "image/" = true ∧ f.size ≤ 10485760)) ∧
    (∀ t, startsWith t "image/" = true →
      processImage (some { type := t, size := 10485760 }) w
          = accepted { type := t, size := 10485760 } w ∧
      emitted w (processImage (some { type := t, size := 10485761 }) w)
          = [Effect.alert "File is too large! Max 10 MB."]) := by
  constructor
  · constructor
    · rintro ⟨f, rfl, h1, -, -⟩
      refine ⟨f, rfl, ?_⟩
      by_cases ht : startsWith f.type "image/" = true
      · by_cases hs : f.size ≤ 10485760
        · exact ⟨ht, hs⟩
        · exfalso
          rw [emitted_oversize f w ht (by omega)] at h1
          simp at h1
      · exfalso
        rw [processImage_other_type f w (by simpa using ht), emitted_self] at h1
        simp at h1
    · rintro ⟨f, rfl, ht, hs⟩
      have hv : valid f = true := (valid_iff f).2 ⟨ht, hs⟩
      have e : emitted w (processImage (some f) w) = _ :=
        emitted_append w _ _ (by rw [processImage_valid f w hv]; rfl)
      refine ⟨f, rfl, ?_, ?_, ?_⟩
      · rw [e]; simp
      · rw [e]; simp
      · rw [processImage_valid f w hv]; simp [isPending, accepted]
  · intro t ht
    constructor
    · exact processImage_valid _ w ((valid_iff _).2 ⟨ht, le_refl _⟩)
    · exact emitted_oversize { type := t, size := 10485761 } w ht (Nat.lt_succ_self _)

theorem processImage_accepts_iff_witness :
    startsWith "image/png" "image/" = true ∧
    (processImage (some { type := "image/png", size := 10485760 }) init).pending
      = [{ op := 0, file := { type := "image/png", size := 10485760 } }] ∧
    emitted init (processImage (some { type := "image/png", size := 10485761 }) init)
      = [Effect.alert "File is too large! Max 10 MB."] :=
  have h := (processImage_accepts_iff none init).2 "image/png" (by decide)
  ⟨by decide, by rw [h.1]; rfl, h.2⟩

/-! ## One operation, from acceptance to settlement -/

/-- C5, as the code has it: after processImage accepts a valid file, originalImage is
the object URL just created for that file (and that URL is live), resultImage is
null and isLoading is true; isLoading then stays true through every sequence of
events in which no call of removeBackground that is in flight settles, whether
that file's call or the call of another operation in flight at the same time. -/
theorem accepted_state (f : File) (w : World) (es : List Event) (hv : valid f = true)
    (hq : noSettlement (processImage (some f) w) es = true) :
    (processImage (some f) w).st.originalImage = some w.nextUrl ∧
    Effect.createObjectURL (Source.file f) w.nextUrl ∈ emitted w (processImage (some f) w) ∧
    { url := w.nextUrl, src := Source.file f } ∈ (processImage (some f) w).store ∧
    (processImage (some f) w).st.resultImage = none ∧
    (processImage (some f) w).st.isLoading = true ∧
    (run (processImage (some f) w) es).st.isLoading = true := by
  have e : emitted w (processImage (some f) w) = _ :=
    emitted_append w _ _ (by rw [processImage_valid f w hv]; rfl)
  refine ⟨?_, ?_, ?_, ?_, ?_, ?_⟩
  · rw [processImage_valid f w hv]; rfl
  · rw [e]; simp
  · rw [processImage_valid f w hv]; simp [accepted]
  · rw [processImage_valid f w hv]; rfl
  · rw [processImage_valid f w hv]; rfl
  · exact run_keeps_loading es _ (by rw [processImage_valid f w hv]; rfl) hq

theorem accepted_state_witness :
    (processImage (some jpg) (accepted png init)).st.originalImage = some 1 ∧
    (processImage (some jpg) (accepted png init)).st.resultImage = none ∧
    (run (processImage (some jpg) (accepted png init))
      [Event.dragOver, Event.drop (some png), Event.settle 7 (Outcome.resolve 3),
       Event.fileChange none]).st.isLoading = true :=
  have h := accepted_state jpg (accepted png init)
    [Event.dragOver, Event.drop (some png), Event.settle 7 (Outcome.resolve 3),
     Event.fileChange none] (by decide) (by decide)
  ⟨h.1, h.2.2.2.1, h.2.2.2.2.2⟩

/-- C5 as stated fails: png is accepted, then jpg is accepted while png is loading;
when the call for png rejects, isLoading is false although the call for jpg has
not settled. -/
theorem loading_cleared_early :
    valid jpg = true ∧
    (run init [Event.fileChange (some png), Event.fileChange (some jpg)]).st.isLoading = true ∧
    isPending 1 (run init [Event.fileChange (some png), Event.fileChange (some jpg),
      Event.settle 0 (Outcome.reject "model load failure")]) = true ∧
    (run init [Event.fileChange (some png), Event.fileChange (some jpg),
      Event.settle 0 (Outcome.reject "model load failure")]).st.isLoading = false := by
  decide

/-- What the continuation does on resolution, and what the handler revoked before:
the result URL that the render behind the handler held. -/
theorem resolved_after_render (f : File) (w W : World) (es : List Event) (b : Blob)
    (hv : valid f = true) (hW : W = run (processImage (some f) w) es)
    (hp : isPending w.nextOp W = true) :
    (settle w.nextOp (Outcome.resolve b) W).st.resultImage = some W.nextUrl ∧
    { url := W.nextUrl, src := Source.blob b } ∈ (settle w.nextOp (Outcome.resolve b) W).store ∧
    (settle w.nextOp (Outcome.resolve b) W).st.isLoading = false ∧
    (∀ r, w.rendered.resultImage = some r → ∃ pre mid,
      (settle w.nextOp (Outcome.resolve b) W).log =
        pre ++ Effect.revokeObjectURL r :: mid ++
          [Effect.createObjectURL (Source.blob b) W.nextUrl]) := by
  rw [settle_resolve w.nextOp b W hp]
  refine ⟨rfl, by simp, rfl, ?_⟩
  intro r hr
  obtain ⟨l, hl⟩ := run_log es (processImage (some f) w)
  rw [← hW, processImage_valid f w hv] at hl
  refine ⟨w.log ++ revokes w.rendered.originalImage,
    [Effect.createObjectURL (Source.file f) w.nextUrl, Effect.removeBackground f w.nextOp] ++ l,
    ?_⟩
  simp only [hl, accepted, hr, revokes, Option.toList, List.map_cons, List.map_nil,
    List.append_assoc, List.singleton_append, List.cons_append, List.nil_append]

/-- C6 fails in the code: png is accepted and its call resolves, so resultImage holds
URL 1, but the component has not re-rendered when jpg is accepted: the handler is
still the closure of the render in which resultImage was null, line 27 revokes
nothing, and when the call for jpg resolves and URL 3 is created from its blob,
URL 1 has never been revoked and is still live.  resultImage is URL 3 and isLoading
is false, as the claim says.  With a render before jpg is accepted, URL 1 is
revoked before URL 3 is created. -/
theorem unrendered_result_not_revoked :
    (run init [Event.fileChange (some png), Event.settle 0 (Outcome.resolve 5)]).st.resultImage
      = some 1 ∧
    (run init [Event.fileChange (some png),
      Event.settle 0 (Outcome.resolve 5)]).rendered.resultImage = none ∧
    (run init [Event.fileChange (some png), Event.settle 0 (Outcome.resolve 5),
      Event.fileChange (some jpg), Event.settle 1 (Outcome.resolve 6)]).st
      = { originalImage := some 2, resultImage := some 3, isLoading := false,
          isDragging := false } ∧
    (run init [Event.fileChange (some png), Event.settle 0 (Outcome.resolve 5),
      Event.fileChange (some jpg), Event.settle 1 (Outcome.resolve 6)]).log
      = [Effect.createObjectURL (Source.file png) 0, Effect.removeBackground png 0,
         Effect.createObjectURL (Source.blob 5) 1, Effect.revokeObjectURL 0,
         Effect.createObjectURL (Source.file jpg) 2, Effect.removeBackground jpg 1,
         Effect.createObjectURL (Source.blob 6) 3] ∧
    liveResults (run init [Event.fileChange (some png), Event.settle 0 (Outcome.resolve 5),
      Event.fileChange (some jpg), Event.settle 1 (Outcome.resolve 6)]) = [1, 3] ∧
    (run init [Event.fileChange (some png), Event.settle 0 (Outcome.resolve 5), Event.render,
      Event.fileChange (some jpg), Event.settle 1 (Outcome.resolve 6)]).log
      = [Effect.createObjectURL (Source.file png) 0, Effect.removeBackground png 0,
         Effect.createObjectURL (Source.blob 5) 1, Effect.revokeObjectURL 0,
         Effect.revokeObjectURL 1,
         Effect.createObjectURL (Source.file jpg) 2, Effect.removeBackground jpg 1,
         Effect.createObjectURL (Source.blob 6) 3] := by
  decide

/-- C7, as the code has it: when the call of removeBackground made for an accepted file
rejects, the continuation sets isLoading to false, creates no object URL, leaves
resultImage and originalImage as they are at that moment, and emits console.error
and the alert "Failed to remove background".  When no other file was accepted and
no call settled between the acceptance and the rejection, resultImage is then null
and originalImage is the URL created for the submitted file. -/
theorem rejected_state (f : File) (w W : World) (es : List Event) (err : Error)
    (hv : valid f = true) (hW : W = run (processImage (some f) w) es) :
    (isPending w.nextOp W = true →
      (settle w.nextOp (Outcome.reject err) W).st.isLoading = false ∧
      (settle w.nextOp (Outcome.reject err) W).st.resultImage = W.st.resultImage ∧
      (settle w.nextOp (Outcome.reject err) W).st.originalImage = W.st.originalImage ∧
      (settle w.nextOp (Outcome.reject err) W).store = W.store ∧
      (settle w.nextOp (Outcome.reject err) W).nextUrl = W.nextUrl ∧
      emitted W (settle w.nextOp (Outcome.reject err) W) =
        [Effect.consoleError err, Effect.alert "Failed to remove background"]) ∧
    ((∀ e ∈ es, idle e = true) →
      isPending w.nextOp W = true ∧
      (settle w.nextOp (Outcome.reject err) W).st.isLoading = false ∧
      (settle w.nextOp (Outcome.reject err) W).st.resultImage = none ∧
      (settle w.nextOp (Outcome.reject err) W).st.originalImage = some w.nextUrl) := by
  constructor
  · intro hp
    refine ⟨?_, ?_, ?_, ?_, ?_, ?_⟩
    · rw [settle_reject w.nextOp err W hp]
    · rw [settle_reject w.nextOp err W hp]
    · rw [settle_reject w.nextOp err W hp]
    · rw [settle_reject w.nextOp err W hp]
    · rw [settle_reject w.nextOp err W hp]
    · exact emitted_append _ _ _ (by rw [settle_reject w.nextOp err W hp])
  · intro hi
    have hc := run_idle es (processImage (some f) w) hi
    rw [← hW, processImage_valid f w hv] at hc
    simp only [core, accepted, Prod.mk.injEq] at hc
    obtain ⟨ho, hr, -, -, -, hpend, -⟩ := hc
    have hp : isPending w.nextOp W = true := by
      simp [isPending, hpend]
    rw [settle_reject w.nextOp err W hp]
    exact ⟨hp, rfl, hr, ho⟩

theorem rejected_state_witness :
    isPending 0 (run (processImage (some png) init)
      [Event.dragOver, Event.drop (some { type := "text/plain", size := 3 })]) = true ∧
    (settle 0 (Outcome.reject "decode failure")
      (run (processImage (some png) init)
        [Event.dragOver, Event.drop (some { type := "text/plain", size := 3 })])).st
      = { originalImage := some 0, resultImage := none, isLoading := false,
          isDragging := false } :=
  have h := rejected_state png init
    (run (processImage (some png) init)
      [Event.dragOver, Event.drop (some { type := "text/plain", size := 3 })])
    [Event.dragOver, Event.drop (some { type := "text/plain", size := 3 })]
    "decode failure" (by decide) rfl
  ⟨(h.2 (by decide)).1, by decide⟩

/-- C7 as stated fails when operations overlap: png and jpg are both in flight; the
call for png resolves, then the call for jpg rejects, and resultImage is the URL
made from the blob returned for png, not null.  And when the call for png rejects
while jpg is in flight, originalImage is the URL of jpg, not that of png. -/
theorem rejected_with_result :
    (run init [Event.fileChange (some png), Event.fileChange (some jpg),
      Event.settle 0 (Outcome.resolve 5), Event.settle 1 (Outcome.reject "decode failure")]).st
      = { originalImage := some 1, resultImage := some 2, isLoading := false,
          isDragging := false } ∧
    (processImage (some png) init).st.originalImage = some 0 ∧
    (run init [Event.fileChange (some png), Event.fileChange (some jpg),
      Event.settle 0 (Outcome.reject "decode failure")]).st.originalImage = some 1 := by
  decide

/-! ## Overlapping operations -/

/-- C1, as the code has it: there is no stale-response guard.  When B is accepted
while the call for A is in flight and the call for A settles while the call for B
is still in flight, the continuation of A leaves originalImage alone and B's call
in flight, but it sets isLoading to false, and when it resolves it sets resultImage
to the object URL made from the blob returned for A (when it rejects, resultImage
is left as it is). -/
theorem stale_settlement (A B : File) (w W : World) (es1 es2 : List Event) (o : Outcome)
    (hA : valid A = true) (_hB : valid B = true)
    (_hW : W = run (processImage (some B) (run (processImage (some A) w) es1)) es2)
    (hpA : isPending w.nextOp W = true)
    (hpB : isPending (run (processImage (some A) w) es1).nextOp W = true) :
    isPending (run (processImage (some A) w) es1).nextOp (settle w.nextOp o W) = true ∧
    (settle w.nextOp o W).st.originalImage = W.st.originalImage ∧
    (settle w.nextOp o W).st.isLoading = false ∧
    (∀ b, o = Outcome.resolve b →
      (settle w.nextOp o W).st.resultImage = some W.nextUrl ∧
      { url := W.nextUrl, src := Source.blob b } ∈ (settle w.nextOp o W).store) ∧
    (∀ err, o = Outcome.reject err →
      (settle w.nextOp o W).st.resultImage = W.st.resultImage) := by
  have hne : (run (processImage (some A) w) es1).nextOp ≠ w.nextOp := by
    have h1 := run_nextOp es1 (processImage (some A) w)
    rw [processImage_valid A w hA] at h1
    have h2 : w.nextOp + 1 ≤ (run (accepted A w) es1).nextOp := h1
    rw [processImage_valid A w hA]
    omega
  have hkeep : ∀ W' : World, W'.pending = W.pending.filter (fun p => p.op != w.nextOp) →
      isPending (run (processImage (some A) w) es1).nextOp W' = true := by
    intro W' hW'
    simp only [isPending, List.any_eq_true, beq_iff_eq] at hpB ⊢
    obtain ⟨p, hp, hpe⟩ := hpB
    refine ⟨p, ?_, hpe⟩
    rw [hW']
    simp [List.mem_filter, hp, hpe, hne]
  cases o with
  | resolve b =>
    rw [settle_resolve w.nextOp b W hpA]
    refine ⟨hkeep _ rfl, rfl, rfl, ?_, ?_⟩
    · intro b' hb
      cases hb
      exact ⟨rfl, by simp⟩
    · intro err he
      cases he
  | reject err =>
    rw [settle_reject w.nextOp err W hpA]
    refine ⟨hkeep _ rfl, rfl, rfl, ?_, ?_⟩
    · intro b hb
      cases hb
    · intro err' _
      rfl

theorem stale_settlement_witness :
    isPending 1 (settle 0 (Outcome.resolve 5)
      (run (processImage (some jpg) (run (processImage (some png) init) [Event.dragOver]))
        [Event.dragLeave])) = true ∧
    (settle 0 (Outcome.resolve 5)
      (run (processImage (some jpg) (run (processImage (some png) init) [Event.dragOver]))
        [Event.dragLeave])).st.isLoading = false :=
  have h := stale_settlement png jpg init
    (run (processImage (some jpg) (run (processImage (some png) init) [Event.dragOver]))
        [Event.dragLeave])
    [Event.dragOver] [Event.dragLeave] (Outcome.resolve 5) (by decide) (by decide) rfl
    (by decide) (by decide)
  ⟨h.1, h.2.2.1⟩

/-- C1 as stated fails: png (A) is accepted, jpg (B) is accepted while A is loading,
then the call for A resolves.  B's call is still in flight, yet resultImage is the
URL created from A's blob and isLoading is false. -/
theorem stale_result_overwrites :
    valid png = true ∧ valid jpg = true ∧
    isPending 0 (run init [Event.fileChange (some png), Event.fileChange (some jpg)]) = true ∧
    isPending 1 (run init [Event.fileChange (some png), Event.fileChange (some jpg),
      Event.settle 0 (Outcome.resolve 5)]) = true ∧
    (run init [Event.fileChange (some png), Event.fileChange (some jpg),
      Event.settle 0 (Outcome.resolve 5)]).st.resultImage = some 2 ∧
    { url := 2, src := Source.blob 5 } ∈
      (run init [Event.fileChange (some png), Event.fileChange (some jpg),
        Event.settle 0 (Outcome.resolve 5)]).store ∧
    (run init [Event.fileChange (some png), Event.fileChange (some jpg),
      Event.settle 0 (Outcome.resolve 5)]).st.isLoading = false := by
  decide

/-! ## Resubmission -/

theorem inFlight_accepted (f : File) (w : World) : InFlight w.nextOp (accepted f w) := by
  refine ⟨rfl, rfl, rfl, ?_⟩
  simp [isPending, accepted]

theorem inFlight_processImage (file : Option File) (op : Nat) (w : World)
    (h : InFlight op w) : InFlight op (processImage file w) := by
  rcases processImage_cases file w with ⟨-, e | e⟩ | ⟨f, -, -, e⟩
  · rw [e]; exact h
  · rw [e]; exact h
  · rw [e]
    refine ⟨rfl, rfl, rfl, ?_⟩
    have hp := h.2.2.2
    simp only [isPending, List.any_eq_true, beq_iff_eq] at hp ⊢
    obtain ⟨p, hp1, hp2⟩ := hp
    exact ⟨p, by simp [accepted, hp1], hp2⟩

theorem inFlight_run (es : List Event) (op : Nat) (w : World) (h : InFlight op w)
    (hq : noSettlement w es = true) : InFlight op (run w es) := by
  induction es generalizing w with
  | nil => exact h
  | cons e rest ih =>
    simp only [noSettlement, Bool.and_eq_true] at hq
    refine ih (step w e) ?_ hq.2
    cases e with
    | fileChange file => exact inFlight_processImage file op w h
    | drop file => exact inFlight_processImage file op (setIsDragging Caller.handler false w) h
    | dragOver => exact h
    | dragLeave => exact h
    | settle op2 o =>
      simp only [step]
      rw [settle_idle op2 o w (by simpa using hq.1)]
      exact h
    | render => exact h

theorem observable_settle (op : Nat) (o : Outcome) (w : World) (h : InFlight op w) :
    observable (settle op o w).st = (true, resolved o, false, w.st.isDragging) := by
  obtain ⟨ho, hr, -, hp⟩ := h
  cases o with
  | resolve b =>
    rw [settle_resolve op b w hp]
    simp [observable, resolved, ho]
  | reject err =>
    rw [settle_reject op err w hp]
    simp [observable, resolved, ho, hr]

/-- C10, as the code has it: a valid file is submitted and its call settles, then the
same file is submitted again and its call settles with the same outcome, and
between each submission and its own settlement no call in flight settles
(anything else may happen).  Then, from every starting world, both runs end with
originalImage set, resultImage set exactly when the outcome is a resolution and
isLoading false, alike in both runs; the whole observable end state is the same
whenever the drop-target highlight is. -/
theorem resubmission_same_state (f : File) (w W1 w1 W2 w2 : World) (es1 es2 : List Event)
    (o : Outcome) (hv : valid f = true)
    (hW1 : W1 = run (processImage (some f) w) es1)
    (hq1 : noSettlement (processImage (some f) w) es1 = true)
    (h1 : w1 = settle w.nextOp o W1)
    (hW2 : W2 = run (processImage (some f) w1) es2)
    (hq2 : noSettlement (processImage (some f) w1) es2 = true)
    (h2 : w2 = settle w1.nextOp o W2) :
    observable w1.st = (true, resolved o, false, W1.st.isDragging) ∧
    observable w2.st = (true, resolved o, false, W2.st.isDragging) ∧
    (w2.st.originalImage.isSome, w2.st.resultImage.isSome, w2.st.isLoading)
      = (w1.st.originalImage.isSome, w1.st.resultImage.isSome, w1.st.isLoading) ∧
    (W2.st.isDragging = W1.st.isDragging → observable w2.st = observable w1.st) := by
  have key : ∀ (v V : World) (es : List Event), V = run (processImage (some f) v) es →
      noSettlement (processImage (some f) v) es = true →
      observable (settle v.nextOp o V).st = (true, resolved o, false, V.st.isDragging) := by
    intro v V es hV hq
    apply observable_settle
    rw [hV]
    apply inFlight_run es v.nextOp _ _ hq
    rw [processImage_valid f v hv]
    exact inFlight_accepted f v
  have e1 := key w W1 es1 hW1 hq1
  have e2 := key w1 W2 es2 hW2 hq2
  rw [← h1] at e1
  rw [← h2] at e2
  refine ⟨e1, e2, ?_, ?_⟩
  · simp only [observable, Prod.mk.injEq] at e1 e2
    simp only [Prod.mk.injEq]
    exact ⟨e2.1.trans e1.1.symm, e2.2.1.trans e1.2.1.symm, e2.2.2.1.trans e1.2.2.1.symm⟩
  · intro hd
    rw [e1, e2, hd]

theorem resubmission_same_state_witness :
    observable (settle 1 (Outcome.resolve 5)
        (run (processImage (some png)
          (settle 0 (Outcome.resolve 5)
            (run (processImage (some png) init) [Event.dragOver, Event.dragLeave])))
          [Event.render])).st
      = observable (settle 0 (Outcome.resolve 5)
          (run (processImage (some png) init) [Event.dragOver, Event.dragLeave])).st ∧
    observable (settle 0 (Outcome.resolve 5)
        (run (processImage (some png) init) [Event.dragOver, Event.dragLeave])).st
      = (true, true, false, false) :=
  have h := resubmission_same_state png init
    (run (processImage (some png) init) [Event.dragOver, Event.dragLeave])
    (settle 0 (Outcome.resolve 5)
      (run (processImage (some png) init) [Event.dragOver, Event.dragLeave]))
    (run (processImage (some png)
      (settle 0 (Outcome.resolve 5)
        (run (processImage (some png) init) [Event.dragOver, Event.dragLeave])))
      [Event.render])
    (settle 1 (Outcome.resolve 5)
        (run (processImage (some png)
          (settle 0 (Outcome.resolve 5)
            (run (processImage (some png) init) [Event.dragOver, Event.dragLeave])))
          [Event.render]))
    [Event.dragOver, Event.dragLeave] [Event.render] (Outcome.resolve 5)
    (by decide) rfl (by decide) rfl rfl (by decide) rfl
  ⟨h.2.2.2 (by decide), h.1⟩

/-- C10 as stated fails when another call settles in between: png is in flight when
jpg is submitted; the call for png resolves, then the call for jpg rejects, and the
first run ends with resultImage set.  jpg is submitted again and its call rejects
again: the second run ends with resultImage null. -/
theorem resubmission_differs :
    valid jpg = true ∧
    observable (run (processImage (some png) init)
      [Event.fileChange (some jpg), Event.settle 0 (Outcome.resolve 5),
       Event.settle 1 (Outcome.reject "decode failure")]).st = (true, true, false, false) ∧
    observable (run (processImage (some png) init)
      [Event.fileChange (some jpg), Event.settle 0 (Outcome.resolve 5),
       Event.settle 1 (Outcome.reject "decode failure"),
       Event.fileChange (some jpg), Event.settle 2 (Outcome.reject "decode failure")]).st
      = (true, false, false, false) := by
  decide

/-! ## Live object URLs -/

theorem revoked_gone (s : List Entry) (o r x : Option Url) (P : Entry → Bool)
    (hx : x = o ∨ x = r) (h : (s.filter P).map Entry.url = x.toList) :
    (((s.filter (survives o)).filter (survives r)).filter P) = [] := by
  rw [List.filter_eq_nil_iff]
  intro a ha hP
  simp only [List.mem_filter] at ha
  obtain ⟨⟨has, hso⟩, hsr⟩ := ha
  have hm : a.url ∈ (s.filter P).map Entry.url :=
    List.mem_map_of_mem Entry.url (List.mem_filter.2 ⟨has, hP⟩)
  rw [h] at hm
  have hxa : x = some a.url := by
    cases x with
    | none => simp at hm
    | some u =>
      simp only [Option.toList, List.mem_singleton] at hm
      rw [hm]
  rcases hx with hx | hx
  · rw [← hx, hxa] at hso
    simp [survives] at hso
  · rw [← hx, hxa] at hsr
    simp [survives] at hsr

theorem originalsHeld_accepted (f : File) (w : World) (h : OriginalsHeld w) :
    OriginalsHeld (accepted f w) := by
  have hx : (w.store.filter isOriginal).map Entry.url = w.rendered.originalImage.toList := by
    rw [h.2]
    exact h.1
  have hg := revoked_gone w.store w.rendered.originalImage w.rendered.resultImage
    w.rendered.originalImage isOriginal (Or.inl rfl) hx
  refine ⟨?_, rfl⟩
  show (List.filter isOriginal (_ ++ [_])).map Entry.url = [w.nextUrl]
  rw [List.filter_append, hg]
  rfl

theorem resultsHeld_accepted (f : File) (w : World) (h : ResultsHeld w)
    (hr : atRest w = true) : ResultsHeld (accepted f w) := by
  simp only [atRest, Bool.and_eq_true, List.isEmpty_iff, decide_eq_true_eq] at hr
  obtain ⟨hp, hrr⟩ := hr
  have hx : (w.store.filter isResult).map Entry.url = w.rendered.resultImage.toList := by
    rw [hrr]
    exact h.1
  have hg := revoked_gone w.store w.rendered.originalImage w.rendered.resultImage
    w.rendered.resultImage isResult (Or.inr rfl) hx
  refine ⟨?_, Or.inr ⟨⟨{ op := w.nextOp, file := f }, by simp [accepted, hp]⟩, rfl⟩⟩
  show (List.filter isResult (_ ++ [_])).map Entry.url = []
  rw [List.filter_append, hg]
  rfl

theorem originalsHeld_settle (op : Nat) (o : Outcome) (w : World) (h : OriginalsHeld w) :
    OriginalsHeld (settle op o w) := by
  by_cases hp : isPending op w = true
  · cases o with
    | resolve b =>
      rw [settle_resolve op b w hp]
      refine ⟨?_, h.2⟩
      have h1 := h.1
      simpa [liveOriginals, List.filter_append, isOriginal] using h1
    | reject err =>
      rw [settle_reject op err w hp]
      exact h
  · rw [settle_idle op o w (by simpa using hp)]
    exact h

theorem resultsHeld_settle (op : Nat) (o : Outcome) (w : World) (h : ResultsHeld w) :
    ResultsHeld (settle op o w) := by
  by_cases hp : isPending op w = true
  · obtain ⟨hl, hpend⟩ := h
    rcases hpend with hnil | ⟨⟨p, hone⟩, hnone⟩
    · simp [isPending, hnil] at hp
    · have hop : p.op = op := by simpa [isPending, hone] using hp
      have hfil : w.pending.filter (fun q => q.op != op) = [] := by
        simp [hone, hop]
      have hres : (w.store.filter isResult).map Entry.url = [] := by
        have := hl
        simp only [liveResults, hnone, Option.toList] at this
        exact this
      cases o with
      | resolve b =>
        rw [settle_resolve op b w hp]
        refine ⟨?_, Or.inl hfil⟩
        simp [liveResults, List.filter_append, isResult, hres]
      | reject err =>
        rw [settle_reject op err w hp]
        exact ⟨hl, Or.inl hfil⟩
  · rw [settle_idle op o w (by simpa using hp)]
    exact h

theorem originalsHeld_processImage (file : Option File) (w : World) (h : OriginalsHeld w) :
    OriginalsHeld (processImage file w) := by
  rcases processImage_cases file w with ⟨-, e | e⟩ | ⟨f, -, -, e⟩
  · rw [e]; exact h
  · rw [e]; exact h
  · rw [e]
    exact originalsHeld_accepted f w h

theorem resultsHeld_processImage (file : Option File) (w : World) (h : ResultsHeld w)
    (hp : (!accepts file || atRest w) = true) : ResultsHeld (processImage file w) := by
  rcases processImage_cases file w with ⟨-, e | e⟩ | ⟨f, rfl, hv, e⟩
  · rw [e]; exact h
  · rw [e]; exact h
  · rw [e]
    apply resultsHeld_accepted f w h
    simpa [accepts, hv] using hp

theorem originalsHeld_step (w : World) (e : Event) (h : OriginalsHeld w) :
    OriginalsHeld (step w e) := by
  cases e with
  | fileChange file => exact originalsHeld_processImage file w h
  | drop file => exact originalsHeld_processImage file (setIsDragging Caller.handler false w) h
  | dragOver => exact h
  | dragLeave => exact h
  | settle op o => exact originalsHeld_settle op o w h
  | render => exact ⟨h.1, rfl⟩

theorem originalsHeld_run (es : List Event) (w : World) (h : OriginalsHeld w) :
    OriginalsHeld (run w es) := by
  induction es generalizing w with
  | nil => exact h
  | cons e rest ih => exact ih (step w e) (originalsHeld_step w e h)

theorem resultsHeld_run (es : List Event) (w : World) (h : ResultsHeld w)
    (hn : noOverlap w es = true) : ResultsHeld (run w es) := by
  induction es generalizing w with
  | nil => exact h
  | cons e rest ih =>
    simp only [noOverlap, Bool.and_eq_true] at hn
    refine ih (step w e) ?_ hn.2
    cases e with
    | fileChange file => exact resultsHeld_processImage file w h hn.1
    | drop file =>
      exact resultsHeld_processImage file (setIsDragging Caller.handler false w) h hn.1
    | dragOver => exact h
    | dragLeave => exact h
    | settle op o => exact resultsHeld_settle op o w h
    | render => exact h

theorem toList_length_le_one (o : Option Url) : o.toList.length ≤ 1 := by
  cases o <;> simp [Option.toList]

/-- C8, as the code has it: after every sequence of file submissions, drag events,
settlements and renders, overlapping or not, the live object URLs made from files
are exactly the one held in originalImage, so at most one; and after every
sequence in which a file is accepted only when no earlier call of removeBackground
is in flight and the result of the last one has been rendered, the live object
URLs made from blobs are exactly the one held in resultImage, so at most one. -/
theorem live_urls_bounded (es : List Event) :
    liveOriginals (run init es) = (run init es).st.originalImage.toList ∧
    (liveOriginals (run init es)).length ≤ 1 ∧
    (noOverlap init es = true →
      liveResults (run init es) = (run init es).st.resultImage.toList ∧
      (liveResults (run init es)).length ≤ 1) := by
  have h1 : OriginalsHeld (run init es) := originalsHeld_run es init ⟨rfl, rfl⟩
  refine ⟨h1.1, ?_, ?_⟩
  · rw [h1.1]
    exact toList_length_le_one _
  · intro hn
    have h2 : ResultsHeld (run init es) := resultsHeld_run es init ⟨rfl, Or.inl rfl⟩ hn
    refine ⟨h2.1, ?_⟩
    rw [h2.1]
    exact toList_length_le_one _

theorem live_urls_bounded_witness :
    noOverlap init [Event.fileChange (some png), Event.settle 0 (Outcome.resolve 5),
      Event.render, Event.drop (some jpg), Event.settle 1 (Outcome.resolve 6)] = true ∧
    liveResults (run init [Event.fileChange (some png), Event.settle 0 (Outcome.resolve 5),
      Event.render, Event.drop (some jpg), Event.settle 1 (Outcome.resolve 6)]) = [3] ∧
    liveOriginals (run init [Event.fileChange (some png), Event.settle 0 (Outcome.resolve 5),
      Event.render, Event.drop (some jpg), Event.settle 1 (Outcome.resolve 6)]) = [2] :=
  have h := live_urls_bounded [Event.fileChange (some png), Event.settle 0 (Outcome.resolve 5),
      Event.render, Event.drop (some jpg), Event.settle 1 (Outcome.resolve 6)]
  ⟨by decide, (h.2.2 (by decide)).1, h.1⟩

/-- C8 as stated fails when operations overlap: png and jpg are both in flight and
both calls resolve; the URL made from the first blob is never revoked, and two
object URLs made from blobs are live. -/
theorem two_live_results :
    liveResults (run init [Event.fileChange (some png), Event.fileChange (some jpg),
      Event.settle 0 (Outcome.resolve 5), Event.settle 1 (Outcome.resolve 6)]) = [2, 3] ∧
    (run init [Event.fileChange (some png), Event.fileChange (some jpg),
      Event.settle 0 (Outcome.resolve 5), Event.settle 1 (Outcome.resolve 6)]).st.resultImage
      = some 3 := by
  decide

/-! ## Teardown -/

/-- C9 fails in the code: the cleanup of the effect of line 10 is the closure of the
first render, where originalImage and resultImage are null, so teardown revokes
nothing, in any world.  After one file is accepted and its call resolves, both
object URLs are held in the state, both are still live after teardown, and the
effect log has no revokeObjectURL. -/
theorem unmount_revokes_nothing :
    (∀ w : World, unmount w = w) ∧
    (run init [Event.fileChange (some png), Event.settle 0 (Outcome.resolve 5)]).st
      = { originalImage := some 0, resultImage := some 1, isLoading := false,
          isDragging := false } ∧
    (unmount (run init [Event.fileChange (some png), Event.settle 0 (Outcome.resolve 5)])).store
      = [{ url := 0, src := Source.file png }, { url := 1, src := Source.blob 5 }] ∧
    (unmount (run init [Event.fileChange (some png), Event.settle 0 (Outcome.resolve 5)])).log
      = [Effect.createObjectURL (Source.file png) 0, Effect.removeBackground png 0,
         Effect.createObjectURL (Source.blob 5) 1] := by
  refine ⟨fun w => rfl, ?_, ?_, ?_⟩ <;> decide

end NeonClean
